import Mathlib

/-!
Verification development for the SentimentDisaster pipeline.

This file shallowly embeds the components of the repository that the
checked properties concern:

* `location_extractor.py` — normalization, deduplication and ordering of
  extracted place-name matches (`extract_pipeline`);
* `preciselocation.py` — query construction (`query_attempts`), provenance
  labelling (`used_source`), the cached geocoder (`geocode_cached`), the
  resolution loop (`tryQueries`) and per-feature processing
  (`processFeature`);
* `news_scraper/spiders/CNN.py` — search pagination (`cnn_parse_search`),
  article/redirect handling (`cnn_parse`) and a crawl driver with the
  scheduler's duplicate filter (`driveCnn`);
* `news_scraper/spiders/Mongabay.py` — search-page handling
  (`mongabay_parse_search`) and article emission (`mongabay_parse`).

Opaque collaborators (the NER model, the HTTP/DOM layer, the external
geocoding service, date parsing) are passed in as parameters, matching the
specification's component boundaries.
-/

namespace SentimentDisaster

/-! ## String primitives mirroring the Python string operations used -/

/-- Python `str.strip()` on a character list: drop whitespace from both ends. -/
def pyStripChars (l : List Char) : List Char :=
  ((l.dropWhile Char.isWhitespace).reverse.dropWhile Char.isWhitespace).reverse

/-- Python `str.strip()`. -/
def pyStrip (s : String) : String :=
  String.mk (pyStripChars s.toList)

/-- Worker for Python `str.title()`: uppercase a letter that follows a
non-letter, lowercase a letter that follows a letter. -/
def pyTitleGo : Bool → List Char → List Char
  | _, [] => []
  | prev, c :: cs =>
    if c.isAlpha then
      (if prev then c.toLower else c.toUpper) :: pyTitleGo true cs
    else
      c :: pyTitleGo false cs

/-- Python `str.title()`. -/
def pyTitle (s : String) : String :=
  String.mk (pyTitleGo false s.toList)

/-- Does `hay` start with `needle` (character lists)? -/
def listStarts : List Char → List Char → Bool
  | [], _ => true
  | _ :: _, [] => false
  | a :: as, b :: bs => a == b && listStarts as bs

/-- Does `hay` contain `needle` as a contiguous run (character lists)? -/
def listHasSub (needle : List Char) : List Char → Bool
  | [] => listStarts needle []
  | b :: bs => listStarts needle (b :: bs) || listHasSub needle bs

/-- Python's substring test `needle in hay`. -/
def strContains (hay needle : String) : Bool :=
  listHasSub needle.toList hay.toList

/-! ## `location_extractor.py` — `extract_locations`

The lexical-pattern matches and the NER entities are opaque text
collaborators, so the pipeline below takes the raw, concatenated match
list (rule-based matches followed by NER entities) as its input.  The
iteration order of the Python `set` used for deduplication is
implementation-defined; it is modelled as an explicit enumeration
function `enum` constrained by `validEnum`. -/

/-- The normalization step of `extract_locations`:
`[loc.strip().title() for loc in locations]`. -/
def normalizeMatches (locs : List String) : List String :=
  locs.map (fun l => pyTitle (pyStrip l))

/-- One step of the stable descending insertion used to model Python's
stable `sorted(..., key=count, reverse=True)`: an earlier element stays
before a later one whenever its key is at least as large. -/
def insDesc (key : α → Nat) (a : α) : List α → List α
  | [] => [a]
  | b :: l => if key b ≤ key a then a :: b :: l else b :: insDesc key a l

/-- Python's `sorted(l, key=key, reverse=True)`: a stable sort placing
larger keys first. -/
def pySortedDesc (key : α → Nat) : List α → List α
  | [] => []
  | a :: l => insDesc key a (pySortedDesc key l)

/-- A function is a valid enumeration of a Python `set` built from a list
iff it lists exactly the distinct elements, in some order. -/
def validEnum (enum : List String → List String) : Prop :=
  ∀ l, (enum l).Nodup ∧ ∀ x, x ∈ enum l ↔ x ∈ l

/-- Worker for first-appearance deduplication. -/
def dedupFAAux : List String → List String → List String
  | _, [] => []
  | seen, a :: l => if a ∈ seen then dedupFAAux seen l else a :: dedupFAAux (a :: seen) l

/-- First-appearance deduplication (keeps the first occurrence of each
element, in order).  One particular valid `set` enumeration. -/
def dedupFA (l : List String) : List String :=
  dedupFAAux [] l

/-- The ordering core of `extract_locations`:
`sorted(list(set(cleaned)), key=lambda x: cleaned.count(x), reverse=True)`,
with the `set` enumeration made explicit. -/
def extract_pipeline (enum : List String → List String) (raw : List String) : List String :=
  let cleaned := normalizeMatches raw
  pySortedDesc (fun x => cleaned.count x) (enum cleaned)

/-- The behavior the specification claims for `extract_locations`:
deduplicate keeping first appearances, then stable-sort by raw occurrence
count descending, so that ties stay in first-appearance order. -/
def claimedExtract (raw : List String) : List String :=
  let cleaned := normalizeMatches raw
  pySortedDesc (fun x => cleaned.count x) (dedupFA cleaned)

/-! ## `preciselocation.py` — query construction, caching, resolution -/

/-- A geocoding result: `(loc.latitude, loc.longitude, loc.address)`.
The external geocoder is opaque; coordinates are abstract integers since
the resolver only moves them around. -/
structure Coord where
  lat : Int
  lon : Int
  display : String
deriving DecidableEq, Repr

/-- The priority-ordered query list built for one feature
(`preciselocation.py`, the `query_attempts` construction).  `kabupaten`
is the normalized region hint; the empty string stands for "no hint"
(Python falsiness). -/
def query_attempts (candidates : List String) (kabupaten : String) : List String :=
  (if kabupaten ≠ "" then
    candidates.map (fun c => c ++ ", " ++ kabupaten ++ ", Bali, Indonesia")
  else []) ++
  candidates.map (fun c => c ++ ", Bali, Indonesia") ++
  (if kabupaten ≠ "" then [kabupaten ++ ", Bali, Indonesia"] else []) ++
  ["Bali, Indonesia"]

/-- The provenance label recorded for a successful query `q`
(`preciselocation.py`, the `used_source` assignment): `"article_place"`
if `q` contains a comma and some candidate occurs in `q` as a substring,
else `"kabupaten_fallback"` if the hint is non-empty and occurs in `q`,
else `"bali_fallback"`. -/
def used_source (q : String) (candidates : List String) (kabupaten : String) : String :=
  if strContains q "," && candidates.any (fun c => strContains q c) then
    "article_place"
  else if kabupaten != "" && strContains q kabupaten then
    "kabupaten_fallback"
  else
    "bali_fallback"

/-- Process-wide geocoder state: the cache (`geocode_cache`, a cached
`none` records a miss) and the log of external calls actually issued
through the rate limiter. -/
structure GeoState where
  cache : List (String × Option Coord)
  calls : List String
deriving DecidableEq, Repr

/-- `geocode_cached(query)`: strip the query; an empty query resolves to
nothing without touching cache or geocoder; a cached query is answered
from the cache without an external call; otherwise one external call is
made and its result — including an error or empty result, as a miss — is
cached. -/
def geocode_cached (oracle : String → Option Coord) (st : GeoState) (query : String) :
    Option Coord × GeoState :=
  let q := pyStrip query
  if q = "" then (none, st)
  else
    match st.cache.lookup q with
    | some r => (r, st)
    | none => (oracle q, ⟨(q, oracle q) :: st.cache, st.calls ++ [q]⟩)

/-- State threaded through the per-feature loop: the geocoder state plus
the `tried_queries` set. -/
structure RunState where
  geo : GeoState
  tried : List String
deriving DecidableEq, Repr

/-- The initial state of a run: empty cache, no calls, nothing tried. -/
def initRun : RunState := ⟨⟨[], []⟩, []⟩

/-- One iteration of the resolution loop: answer from the cache when the
query was both tried and cached (`q in tried_queries and q in
geocode_cache`), otherwise call `geocode_cached` and record the query as
tried. -/
def tryStep (oracle : String → Option Coord) (st : RunState) (q : String) :
    Option Coord × RunState :=
  if q ∈ st.tried ∧ (st.geo.cache.lookup q).isSome = true then
    ((st.geo.cache.lookup q).join, st)
  else
    let p := geocode_cached oracle st.geo q
    (p.1, ⟨p.2, q :: st.tried⟩)

/-- The resolution loop of `preciselocation.py`: walk the query list in
order, stopping at the first query yielding a coordinate. -/
def tryQueries (oracle : String → Option Coord) : RunState → List String →
    Option (String × Coord) × RunState
  | st, [] => (none, st)
  | st, q :: qs =>
    let p := tryStep oracle st q
    match p.1 with
    | some c => (some (q, c), p.2)
    | none => tryQueries oracle p.2 qs

/-- First query in a list on which `f` succeeds, paired with its answer. -/
def firstHit (f : String → Option Coord) : List String → Option (String × Coord)
  | [] => none
  | q :: qs =>
    match f q with
    | some c => some (q, c)
    | none => firstHit f qs

/-- Property values stored in a feature's GeoJSON `properties` map. -/
inductive JVal where
  | str : String → JVal
  | num : Int → JVal
  | null : JVal
deriving DecidableEq, Repr

/-- A feature's geometry: a point, or anything else kept opaque. -/
inductive Geometry where
  | point : Int → Int → Geometry
  | other : String → Geometry
deriving DecidableEq, Repr

/-- One GeoJSON feature: geometry plus a key-value property map. -/
structure Feature where
  geometry : Geometry
  props : List (String × JVal)
deriving DecidableEq, Repr

/-- How the run tallies one processed feature. -/
inductive Outcome where
  | updated : Outcome
  | skipped : Outcome
deriving DecidableEq, Repr

/-- `props[k] = v`: overwrite the binding for `k` if present, else append. -/
def setP (k : String) (v : JVal) : List (String × JVal) → List (String × JVal)
  | [] => [(k, v)]
  | (k', v') :: m => if k' = k then (k, v) :: m else (k', v') :: setP k v m

/-- Processing of one feature after candidate extraction
(`preciselocation.py`, the per-feature loop body from the query attempts
on): resolve the query list; on failure mark the feature skipped with
status properties only; on success rewrite the refine properties, replace
the geometry by the found point and update `latitude`/`longitude`. -/
def processFeature (oracle : String → Option Coord) (cands : List String)
    (kab : String) (st : RunState) (feat : Feature) : Feature × Outcome × RunState :=
  let res := tryQueries oracle st (query_attempts cands kab)
  match res.1 with
  | none =>
    let props := setP "refine_source" .null
      (setP "refined_location" .null
        (setP "refine_status" (.str "no_geocode_found") feat.props))
    (⟨feat.geometry, props⟩, .skipped, res.2)
  | some (q, c) =>
    let props0 := setP "refined_location_query" (.str q) feat.props
    let props1 := setP "refined_location"
      (.str (if c.display = "" then q else c.display)) props0
    let props2 := setP "refine_source" (.str (used_source q cands kab)) props1
    let props3 := setP "latitude_refined" (.num c.lat) props2
    let props4 := setP "longitude_refined" (.num c.lon) props3
    let props5 := setP "latitude" (.num c.lat) props4
    let props6 := setP "longitude" (.num c.lon) props5
    (⟨.point c.lon c.lat, props6⟩, .updated, res.2)

/-! ## `news_scraper/spiders/CNN.py` — search pagination and article parse -/

/-- One entry of the CNN search API's `data` array: only its `url` field
matters to the adapter (`article.get("url")`, possibly missing). -/
structure CnnSearchItem where
  url : Option String
deriving DecidableEq, Repr

/-- A request the CNN adapter can issue from `parse_search`: the next
search page (by its `start` offset) or an article fetch. -/
inductive CReq where
  | nextPage : Nat → CReq
  | articleReq : String → CReq
deriving DecidableEq, Repr

/-- `CnnSpider.parse_search`: on unparseable JSON, stop the branch; on an
empty `data` array, issue nothing (pagination ends); otherwise schedule
the next page at `start + 10` and an article request for every item that
carries a URL. -/
def cnn_parse_search (jsonData : Option (List CnnSearchItem)) (start : Nat) : List CReq :=
  match jsonData with
  | none => []
  | some items =>
    if items.isEmpty then []
    else
      CReq.nextPage (start + 10) ::
        items.filterMap (fun it => it.url.map CReq.articleReq)

/-- Is a request a next-page (pagination) request? -/
def isNextPage : CReq → Bool
  | .nextPage _ => true
  | .articleReq _ => false

/-- The CNN pagination chain: the source is the list of successive search
responses; each element produces one issued page request, and a further
page is fetched exactly when `parse_search` schedules one. Returns the
number of page requests issued. -/
def cnnPageRun : List (Option (List CnnSearchItem)) → Nat → Nat
  | [], _ => 0
  | pg :: rest, start =>
    1 + (if (cnn_parse_search pg start).any isNextPage then cnnPageRun rest (start + 10) else 0)

/-- The request context carried in `response.meta`. -/
structure Ctx where
  keyword : String
  source : String
deriving DecidableEq, Repr

/-- The extracted parts of a CNN article page that `parse` reads:
`detailText` is the text of the `div.detail-text` node when present,
`h1Text` the `h1` text, `dateText` and `authorText` the date and author
nodes. -/
structure CnnPage where
  detailText : Option String
  h1Text : Option String
  dateText : Option String
  authorText : Option String
deriving DecidableEq, Repr

/-- A response as `CnnSpider.parse` distinguishes them: one carrying a
`location` header (an HTTP redirect) or an article page. -/
inductive CnnResponse where
  | redirect : String → CnnResponse
  | page : CnnPage → CnnResponse
deriving DecidableEq, Repr

/-- The callback attached to an issued request. -/
inductive Cb where
  | cbParse : Cb
  | cbParseSearch : Cb
deriving DecidableEq, Repr

/-- The article record assembled by the spiders. -/
structure Article where
  title : String
  content : String
  author : String
  publishDate : Option String
  keyword : String
  source : String
  link : String
deriving DecidableEq, Repr

/-- What `parse` may emit: a follow-up request (URL, callback, carried
context) or an article record. -/
inductive CnnOut where
  | req : String → Cb → Ctx → CnnOut
  | item : Article → CnnOut
deriving DecidableEq, Repr

/-- `CnnSpider.parse`: a response with a `location` header is answered by
exactly one re-issued request to that target, with the same `meta` and
the `parse` callback, and nothing else; otherwise, if the page has a
`div.detail-text` node an article record is built (its `content` field
wraps the extracted body in a header block), else nothing is emitted.
`indoDate` is the opaque `indo_to_datetime` date parser. -/
def cnn_parse (indoDate : String → Option String) (ctx : Ctx) (respUrl : String) :
    CnnResponse → List CnnOut
  | .redirect loc => [.req loc .cbParse ctx]
  | .page pg =>
    match pg.detailText with
    | none => []
    | some body =>
      let title := pg.h1Text.getD ""
      let pubDate := pg.dateText.getD ""
      let author := pg.authorText.getD ""
      let content := pyStrip body
      [.item
        { title := title
          content := pyStrip
            ("\njudul: " ++ title ++ "\nauthor: " ++ author ++
              "\ntanggal: " ++ pubDate ++ "\n" ++ content ++ "\n")
          author := author
          publishDate := indoDate pubDate
          keyword := ctx.keyword
          source := ctx.source
          link := respUrl }]

/-- The URL of a follow-up request, if the output is one. -/
def outReqUrl : CnnOut → Option String
  | .req u _ _ => some u
  | .item _ => none

/-- The article record, if the output is one. -/
def outItem : CnnOut → Option Article
  | .req _ _ _ => none
  | .item a => some a

/-- Modelled from the spec: the Crawl Scheduler's at-most-once dispatch
per URL (Scrapy's duplicate filter, which is not repository code) — a
frontier-driven loop that drops a request whose URL was already
processed.  Returns the log of processed URLs, the emitted records, and
whether the frontier drained within the given fuel. -/
def driveCnn (server : String → CnnResponse) (indoDate : String → Option String)
    (ctx : Ctx) : Nat → List String → List String → List String × List Article × Bool
  | 0, frontier, _ => ([], [], frontier.isEmpty)
  | _ + 1, [], _ => ([], [], true)
  | fuel + 1, u :: rest, seen =>
    if u ∈ seen then driveCnn server indoDate ctx fuel rest seen
    else
      let outs := cnn_parse indoDate ctx u (server u)
      let reqs := outs.filterMap outReqUrl
      let items := outs.filterMap outItem
      let next := driveCnn server indoDate ctx fuel (reqs ++ rest) (u :: seen)
      (u :: next.1, items ++ next.2.1, next.2.2)

/-! ## `news_scraper/spiders/Mongabay.py` — search page and article parse -/

/-- A request the Mongabay `parse_search` can issue: an article follow
(callback `parse`) or a pagination follow (callback `parse_search`). -/
inductive MReq where
  | mArticle : String → MReq
  | mPage : String → MReq
deriving DecidableEq, Repr

/-- The parts of a rendered search page that `parse_search` reads: for
each selected `article` element the href of its chosen anchor (when any),
the hrefs of the `a.page-numbers` pagination anchors, and the
already-normalized candidate links of the no-articles fallback. -/
structure MongaSearchPage where
  articleAnchors : List (Option String)
  pageAnchors : List (Option String)
  fallbackLinks : List String
deriving DecidableEq, Repr

/-- `MongabaySpider.parse_search`: follow each article anchor that has an
href; follow each pagination anchor that has an href; when no article
elements were found at all, additionally follow the date-like candidate
links with the article callback. -/
def mongabay_parse_search (pg : MongaSearchPage) : List MReq :=
  pg.articleAnchors.filterMap (fun h => h.map MReq.mArticle) ++
  pg.pageAnchors.filterMap (fun h => h.map MReq.mPage) ++
  (if pg.articleAnchors.isEmpty then pg.fallbackLinks.map MReq.mArticle else [])

/-- Is a Mongabay request a pagination request? -/
def isMPage : MReq → Bool
  | .mPage _ => true
  | .mArticle _ => false

/-- The extracted parts of a Mongabay article page that `parse` reads
(texts already stripped, as in the source), plus the GraphQL overrides
carried in `meta`. -/
structure MongaPage where
  title : String
  content : String
  author : String
  rawDate : Option String
deriving DecidableEq, Repr

/-- The override metadata a GraphQL result passes to `parse`. -/
structure MongaMeta where
  keyword : String
  source : String
  authorOverride : Option String
  dateOverride : Option String
deriving DecidableEq, Repr

/-- `MongabaySpider.parse`: compute author and publish date (applying the
GraphQL overrides, Python-truthily); yield a record only when the
extracted title or content is non-empty.  `indoDate` and `isoDate` are
the opaque date parsers. -/
def mongabay_parse (indoDate : String → Option String) (isoDate : String → Option String)
    (meta : MongaMeta) (respUrl : String) (pg : MongaPage) : Option Article :=
  let author :=
    match meta.authorOverride with
    | some a => if a ≠ "" then a else pg.author
    | none => pg.author
  let fromDom := pg.rawDate.bind indoDate
  let publishDate :=
    match meta.dateOverride, fromDom with
    | some d, none => if d ≠ "" then (isoDate d).getD d |> some else none
    | _, r => r
  if pg.title = "" ∧ pg.content = "" then none
  else
    some
      { title := pg.title
        content := pg.content
        author := author
        publishDate := publishDate
        keyword := meta.keyword
        source := meta.source
        link := respUrl }

/-! ## Invariants used by the proofs -/

/-- Cache/call-log coherence: no external call was made twice, and every
query that was called externally is cached afterwards. -/
def InvC (st : GeoState) : Prop :=
  st.calls.Nodup ∧ ∀ q ∈ st.calls, (st.cache.lookup q).isSome = true

/-- Every cache entry agrees with the external geocoder and is keyed by a
non-empty, strip-fixed string. -/
def FaithNE (oracle : String → Option Coord) (st : RunState) : Prop :=
  ∀ k r, st.geo.cache.lookup k = some r → r = oracle k ∧ pyStrip k = k ∧ k ≠ ""

/-! ## Helper lemmas -/

theorem lookup_setP_self (m : List (String × JVal)) (k : String) (v : JVal) :
    (setP k v m).lookup k = some v := by
  induction m with
  | nil => simp [setP, List.lookup]
  | cons p m ih =>
    obtain ⟨k', v'⟩ := p
    by_cases h : k' = k
    · subst h; simp [setP, List.lookup]
    · simp [setP, h, List.lookup, beq_eq_false_iff_ne.mpr (Ne.symm h), ih]

theorem lookup_setP_ne (m : List (String × JVal)) (k : String) (v : JVal)
    (k' : String) (h : k' ≠ k) : (setP k v m).lookup k' = m.lookup k' := by
  induction m with
  | nil => simp [setP, List.lookup, beq_eq_false_iff_ne.mpr h]
  | cons p m ih =>
    obtain ⟨k₀, v₀⟩ := p
    by_cases h0 : k₀ = k
    · subst h0
      simp [setP, List.lookup, beq_eq_false_iff_ne.mpr h]
    · simp only [setP, if_neg h0, List.lookup]
      cases hbe : k' == k₀
      · simp [ih]
      · simp

theorem mem_insDesc (key : α → Nat) (a x : α) (l : List α) :
    x ∈ insDesc key a l ↔ x = a ∨ x ∈ l := by
  induction l with
  | nil => simp [insDesc]
  | cons b l ih =>
    by_cases h : key b ≤ key a
    · simp [insDesc, h]
    · simp only [insDesc, if_neg h, List.mem_cons, ih]
      tauto

theorem perm_insDesc (key : α → Nat) (a : α) (l : List α) :
    (insDesc key a l).Perm (a :: l) := by
  induction l with
  | nil => simp [insDesc]
  | cons b l ih =>
    by_cases h : key b ≤ key a
    · simp [insDesc, h]
    · simp only [insDesc, if_neg h]
      exact (ih.cons b).trans (List.Perm.swap a b l)

theorem pairwise_insDesc (key : α → Nat) (a : α) (l : List α)
    (h : List.Pairwise (fun x y => key y ≤ key x) l) :
    List.Pairwise (fun x y => key y ≤ key x) (insDesc key a l) := by
  induction l with
  | nil => simp [insDesc]
  | cons b l ih =>
    rw [List.pairwise_cons] at h
    obtain ⟨hb, hl⟩ := h
    by_cases hba : key b ≤ key a
    · rw [insDesc, if_pos hba]
      refine List.Pairwise.cons ?_ (List.Pairwise.cons hb hl)
      intro c hc
      rcases List.mem_cons.mp hc with rfl | hc
      · exact hba
      · exact le_trans (hb c hc) hba
    · rw [insDesc, if_neg hba]
      refine List.Pairwise.cons ?_ (ih hl)
      intro c hc
      rcases (mem_insDesc key a c l).mp hc with rfl | hc
      · exact le_of_lt (lt_of_not_le hba)
      · exact hb c hc

theorem perm_pySortedDesc (key : α → Nat) (l : List α) :
    (pySortedDesc key l).Perm l := by
  induction l with
  | nil => simp [pySortedDesc]
  | cons a l ih =>
    exact (perm_insDesc key a (pySortedDesc key l)).trans (ih.cons a)

theorem pairwise_pySortedDesc (key : α → Nat) (l : List α) :
    List.Pairwise (fun x y => key y ≤ key x) (pySortedDesc key l) := by
  induction l with
  | nil => simp [pySortedDesc]
  | cons a l ih => exact pairwise_insDesc key a _ ih

theorem mem_dedupFAAux (seen l : List String) (x : String) :
    x ∈ dedupFAAux seen l ↔ x ∈ l ∧ x ∉ seen := by
  induction l generalizing seen with
  | nil => simp [dedupFAAux]
  | cons a l ih =>
    by_cases h : a ∈ seen
    · rw [dedupFAAux, if_pos h, ih]
      constructor
      · rintro ⟨hx, hns⟩
        exact ⟨List.mem_cons.mpr (Or.inr hx), hns⟩
      · rintro ⟨hx, hns⟩
        rcases List.mem_cons.mp hx with rfl | hx
        · exact absurd h hns
        · exact ⟨hx, hns⟩
    · rw [dedupFAAux, if_neg h]
      constructor
      · intro hx
        rcases List.mem_cons.mp hx with rfl | hx
        · exact ⟨List.mem_cons_self _ _, h⟩
        · obtain ⟨hl', hns⟩ := (ih (a :: seen)).mp hx
          exact ⟨List.mem_cons.mpr (Or.inr hl'),
            fun hs => hns (List.mem_cons.mpr (Or.inr hs))⟩
      · rintro ⟨hx, hns⟩
        rcases List.mem_cons.mp hx with rfl | hx
        · exact List.mem_cons_self _ _
        · by_cases hxa : x = a
          · subst hxa; exact List.mem_cons_self _ _
          · exact List.mem_cons.mpr (Or.inr ((ih (a :: seen)).mpr
              ⟨hx, fun hs => (List.mem_cons.mp hs).elim hxa hns⟩))

theorem nodup_dedupFAAux (seen l : List String) : (dedupFAAux seen l).Nodup := by
  induction l generalizing seen with
  | nil => simp [dedupFAAux]
  | cons a l ih =>
    by_cases h : a ∈ seen
    · simpa [dedupFAAux, if_pos h] using ih seen
    · simp only [dedupFAAux, if_neg h]
      refine List.Nodup.cons ?_ (ih (a :: seen))
      intro hmem
      exact ((mem_dedupFAAux (a :: seen) l a).mp hmem).2 (List.mem_cons_self a seen)

theorem validEnum_dedupFA : validEnum dedupFA := by
  intro l
  refine ⟨nodup_dedupFAAux [] l, fun x => ?_⟩
  simp [dedupFA, mem_dedupFAAux]

theorem validEnum_revDedupFA : validEnum (fun l => (dedupFA l).reverse) := by
  intro l
  refine ⟨List.nodup_reverse.mpr (nodup_dedupFAAux [] l), fun x => ?_⟩
  simp [dedupFA, mem_dedupFAAux]

theorem listStarts_self_append (n r : List Char) : listStarts n (n ++ r) = true := by
  induction n with
  | nil => simp [listStarts]
  | cons a n ih => simp [listStarts, ih]

theorem listHasSub_of_starts (n h : List Char) (hs : listStarts n h = true) :
    listHasSub n h = true := by
  cases h with
  | nil => simpa [listHasSub] using hs
  | cons b bs => simp [listHasSub, hs]

theorem listHasSub_append (n x y : List Char) (h : listHasSub n y = true) :
    listHasSub n (x ++ y) = true := by
  induction x with
  | nil => simpa using h
  | cons a x ih =>
    simp only [List.cons_append, listHasSub, Bool.or_eq_true]
    exact Or.inr ih

theorem strContains_left (c r : String) : strContains (c ++ r) c = true := by
  unfold strContains
  have : (c ++ r).toList = c.toList ++ r.toList := by
    simp [String.toList, String.data_append]
  rw [this]
  exact listHasSub_of_starts _ _ (listStarts_self_append _ _)

theorem strContains_right (s t n : String) (h : strContains t n = true) :
    strContains (s ++ t) n = true := by
  unfold strContains at h ⊢
  have : (s ++ t).toList = s.toList ++ t.toList := by
    simp [String.toList, String.data_append]
  rw [this]
  exact listHasSub_append _ _ _ h

theorem geocode_cached_inv (oracle : String → Option Coord) (st : GeoState)
    (q : String) (h : InvC st) : InvC (geocode_cached oracle st q).2 := by
  obtain ⟨hnd, hmem⟩ := h
  unfold geocode_cached
  by_cases hq : pyStrip q = ""
  · simpa [hq] using ⟨hnd, hmem⟩
  · simp only [if_neg hq]
    cases hl : st.cache.lookup (pyStrip q) with
    | some r => simp only [hl]; exact ⟨hnd, hmem⟩
    | none =>
      simp only [hl]
      constructor
      · have hnotin : pyStrip q ∉ st.calls := by
          intro hin
          have := hmem _ hin
          rw [hl] at this
          simp at this
        simp [List.nodup_append, hnd, hnotin]
      · intro x hx
        rcases List.mem_append.mp hx with hx | hx
        · have := hmem x hx
          simp only [List.lookup]
          cases hbe : x == pyStrip q
          · simpa using this
          · simp
        · have hx' : x = pyStrip q := by simpa using hx
          subst hx'
          simp [List.lookup]

theorem tryStep_inv (oracle : String → Option Coord) (st : RunState) (q : String)
    (h : InvC st.geo) : InvC (tryStep oracle st q).2.geo := by
  unfold tryStep
  by_cases hc : q ∈ st.tried ∧ (st.geo.cache.lookup q).isSome = true
  · simpa [if_pos hc] using h
  · simp only [if_neg hc]
    exact geocode_cached_inv oracle st.geo q h

theorem tryQueries_inv (oracle : String → Option Coord) (st : RunState)
    (qs : List String) (h : InvC st.geo) : InvC (tryQueries oracle st qs).2.geo := by
  induction qs generalizing st with
  | nil => simpa [tryQueries] using h
  | cons q qs ih =>
    simp only [tryQueries]
    cases hp : (tryStep oracle st q).1 with
    | some c => simp only [hp]; exact tryStep_inv oracle st q h
    | none => simp only [hp]; exact ih _ (tryStep_inv oracle st q h)

theorem tryStep_faith (oracle : String → Option Coord) (st : RunState) (q : String)
    (hq : pyStrip q = q ∧ q ≠ "") (hf : FaithNE oracle st) :
    (tryStep oracle st q).1 = oracle q ∧ FaithNE oracle (tryStep oracle st q).2 := by
  unfold tryStep
  by_cases hc : q ∈ st.tried ∧ (st.geo.cache.lookup q).isSome = true
  · obtain ⟨r, hr⟩ := Option.isSome_iff_exists.mp hc.2
    have hro : r = oracle q := (hf q r hr).1
    rw [if_pos hc, hr]
    exact ⟨hro, hf⟩
  · rw [if_neg hc]
    unfold geocode_cached
    rw [hq.1, if_neg hq.2]
    cases hl : st.geo.cache.lookup q with
    | some r =>
      simp only [hl]
      exact ⟨(hf q r hl).1, fun k r' hk => hf k r' hk⟩
    | none =>
      simp only [hl]
      refine ⟨?_, fun k r' hk => ?_⟩
      · simp
      · simp only [List.lookup] at hk
        cases hbe : k == q with
        | true =>
          have hkq : k = q := by simpa using hbe
          subst hkq
          rw [hbe] at hk
          simp at hk
          exact ⟨hk.symm, hq.1, hq.2⟩
        | false =>
          rw [hbe] at hk
          simp at hk
          exact hf k r' hk

theorem tryQueries_firstHit (oracle : String → Option Coord) (st : RunState)
    (qs : List String) (hqs : ∀ q ∈ qs, pyStrip q = q ∧ q ≠ "")
    (hf : FaithNE oracle st) :
    (tryQueries oracle st qs).1 = firstHit oracle qs := by
  induction qs generalizing st with
  | nil => simp [tryQueries, firstHit]
  | cons q qs ih =>
    have hq := hqs q (List.mem_cons_self q qs)
    obtain ⟨hr, hfa⟩ := tryStep_faith oracle st q hq hf
    simp only [tryQueries, firstHit]
    cases ho : oracle q with
    | some c => simp only [hr, ho]
    | none =>
      simp only [hr, ho]
      exact ih _ (fun x hx => hqs x (List.mem_cons.mpr (Or.inr hx))) hfa

theorem faith_initRun (oracle : String → Option Coord) : FaithNE oracle initRun := by
  intro k r hk
  simp [initRun, List.lookup] at hk

theorem invC_initRun : InvC initRun.geo := by
  constructor
  · simp [initRun]
  · intro q hq
    simp [initRun] at hq

theorem firstHit_eq_of (f : String → Option Coord) (qs : List String) (i : Nat)
    (hi : i < qs.length) (c : Coord) (hs : f (qs.get ⟨i, hi⟩) = some c)
    (hbefore : ∀ j (hj : j < qs.length), j < i → f (qs.get ⟨j, hj⟩) = none) :
    firstHit f qs = some (qs.get ⟨i, hi⟩, c) := by
  induction qs generalizing i with
  | nil => exact absurd hi (by simp)
  | cons q qs ih =>
    cases i with
    | zero =>
      simp only [List.get] at hs
      simp [firstHit, hs]
    | succ i =>
      have h0 : f q = none := by
        have := hbefore 0 (by simp) (Nat.succ_pos i)
        simpa using this
      simp only [firstHit, h0]
      have hi' : i < qs.length := by simpa using hi
      have hs' : f (qs.get ⟨i, hi'⟩) = some c := by simpa using hs
      have hb' : ∀ j (hj : j < qs.length), j < i → f (qs.get ⟨j, hj⟩) = none := by
        intro j hj hji
        have := hbefore (j + 1) (by simpa using Nat.succ_lt_succ hj)
          (Nat.succ_lt_succ hji)
        simpa using this
      simpa using ih i hi' hs' hb'

theorem filter_isMPage_filterMap (l : List (Option String)) :
    ((l.filterMap (fun h => h.map MReq.mArticle)).filter isMPage) = [] := by
  induction l with
  | nil => rfl
  | cons h l ih => cases h <;> simp [List.filterMap_cons, isMPage, ih]

theorem filter_isMPage_map (l : List String) :
    ((l.map MReq.mArticle).filter isMPage) = [] := by
  induction l with
  | nil => rfl
  | cons a l ih => simp [isMPage, ih]

theorem driveCnn_processed_once (server : String → CnnResponse)
    (dp : String → Option String) (ctx : Ctx) :
    ∀ (fuel : Nat) (frontier seen : List String),
      (driveCnn server dp ctx fuel frontier seen).1.Nodup ∧
      ∀ u ∈ (driveCnn server dp ctx fuel frontier seen).1, u ∉ seen := by
  intro fuel
  induction fuel with
  | zero => intro frontier seen; simp [driveCnn]
  | succ fuel ih =>
    intro frontier seen
    cases frontier with
    | nil => simp [driveCnn]
    | cons u rest =>
      by_cases hu : u ∈ seen
      · simp only [driveCnn, if_pos hu]
        exact ih rest seen
      · simp only [driveCnn, if_neg hu]
        obtain ⟨hnd, hni⟩ :=
          ih ((cnn_parse dp ctx u (server u)).filterMap outReqUrl ++ rest) (u :: seen)
        constructor
        · refine List.Nodup.cons ?_ hnd
          intro hmem
          exact (hni u hmem) (List.mem_cons_self u seen)
        · intro v hv
          rcases List.mem_cons.mp hv with rfl | hv
          · exact hu
          · intro hs
            exact (hni v hv) (List.mem_cons.mpr (Or.inr hs))

theorem getLast?_append_singleton (l : List α) (a : α) :
    (l ++ [a]).getLast? = some a := by
  simp [List.getLast?_append]

/-! ## Claim theorems -/

/-- C1 counterexample: the claim says that with an empty candidate list and
region hint "Badung" the first attempted query is "Badung, Indonesia"; the
code builds "Badung, Bali, Indonesia" as the first query (every tier carries
the fixed "Bali, Indonesia" context, not a bare country context). -/
theorem C1_counterexample :
    (query_attempts [] "Badung").head? = some "Badung, Bali, Indonesia" ∧
    (query_attempts [] "Badung").head? ≠ some "Badung, Indonesia" := by decide

/-- C1 amended: the query list is built in strict priority order — each
candidate with the region hint and the "Bali, Indonesia" context, then each
candidate with "Bali, Indonesia" only, then the hint with "Bali, Indonesia",
then "Bali, Indonesia" alone — and the resolution loop tries exactly this
list in order, stopping at the first query yielding a coordinate; with an
empty candidate list and hint "Badung" the first attempted query is
"Badung, Bali, Indonesia". -/
theorem C1_query_priority :
    query_attempts [] "Badung" = ["Badung, Bali, Indonesia", "Bali, Indonesia"] ∧
    (∀ (oracle : String → Option Coord) (cands : List String) (kab : String),
      (∀ q ∈ query_attempts cands kab, pyStrip q = q ∧ q ≠ "") →
      (tryQueries oracle initRun (query_attempts cands kab)).1 =
        firstHit oracle (query_attempts cands kab)) ∧
    (∀ (f : String → Option Coord) (qs : List String) (i : Nat)
      (hi : i < qs.length) (c : Coord),
      f (qs.get ⟨i, hi⟩) = some c →
      (∀ j (hj : j < qs.length), j < i → f (qs.get ⟨j, hj⟩) = none) →
      firstHit f qs = some (qs.get ⟨i, hi⟩, c)) := by
  refine ⟨by decide, ?_, ?_⟩
  · intro oracle cands kab hqs
    exact tryQueries_firstHit oracle initRun _ hqs (faith_initRun oracle)
  · intro f qs i hi c hs hb
    exact firstHit_eq_of f qs i hi c hs hb

/-- C1 witness: with candidates ["Ubud", "Kuta"] and hint "Gianyar", an
oracle that only resolves "Ubud, Bali, Indonesia" (the third query of the
list) makes the loop return exactly that query and coordinate. -/
theorem C1_query_priority_witness :
    (tryQueries (fun q => if q = "Ubud, Bali, Indonesia" then
        some ⟨1, 2, "addr"⟩ else none)
      initRun (query_attempts ["Ubud", "Kuta"] "Gianyar")).1 =
      some ("Ubud, Bali, Indonesia", ⟨1, 2, "addr"⟩) := by
  have h := C1_query_priority.2.1
    (fun q => if q = "Ubud, Bali, Indonesia" then some ⟨1, 2, "addr"⟩ else none)
    ["Ubud", "Kuta"] "Gianyar" (by decide)
  rw [h]
  have h2 := C1_query_priority.2.2
    (fun q => if q = "Ubud, Bali, Indonesia" then some ⟨1, 2, "addr"⟩ else none)
    (query_attempts ["Ubud", "Kuta"] "Gianyar") 2 (by decide) ⟨1, 2, "addr"⟩
    (by decide) (by decide)
  exact h2

/-- C2 counterexample: when only the fixed last-resort query
"Bali, Indonesia" succeeds, the recorded refine_source is "bali_fallback",
which is not among article_place / kabupaten_fallback / region_fallback as
the claim states. -/
theorem C2_counterexample :
    ((processFeature (fun q => if q = "Bali, Indonesia" then some ⟨1, 2, "d"⟩ else none)
      [] "" initRun ⟨.other "orig", []⟩).1.props.lookup "refine_source")
      = some (.str "bali_fallback") ∧
    ("bali_fallback" : String) ∉
      (["article_place", "kabupaten_fallback", "region_fallback"] : List String) := by
  decide

/-- C2 amended: the recorded refine_source is always one of article_place,
kabupaten_fallback or bali_fallback; it is reconstructed from the successful
query text by substring matching (so a query built from a candidate in a
tier-one shape is labelled article_place), not tracked from the query's
construction tier. -/
theorem C2_refine_source :
    (∀ (q : String) (cands : List String) (kab : String),
      used_source q cands kab ∈
        (["article_place", "kabupaten_fallback", "bali_fallback"] : List String)) ∧
    (∀ (cands : List String) (c : String) (kab : String), c ∈ cands →
      used_source (c ++ ", " ++ kab ++ ", Bali, Indonesia") cands kab =
        "article_place") := by
  constructor
  · intro q cands kab
    unfold used_source
    split_ifs <;> simp
  · intro cands c kab hc
    have h1 : strContains (c ++ ", " ++ kab ++ ", Bali, Indonesia") "," = true :=
      strContains_right _ _ _ (by decide)
    have h2 : strContains (c ++ ", " ++ kab ++ ", Bali, Indonesia") c = true := by
      rw [String.append_assoc, String.append_assoc]
      exact strContains_left c _
    have hcond : (strContains (c ++ ", " ++ kab ++ ", Bali, Indonesia") "," &&
        cands.any (fun c' =>
          strContains (c ++ ", " ++ kab ++ ", Bali, Indonesia") c')) = true := by
      rw [Bool.and_eq_true]
      exact ⟨h1, List.any_eq_true.mpr ⟨c, hc, h2⟩⟩
    unfold used_source
    rw [if_pos hcond]

/-- C2 witness: a tier-one-shaped query built from the candidate "Ubud"
with the hint "Gianyar" is labelled article_place, and an arbitrary label is
in the three-value range. -/
theorem C2_refine_source_witness :
    used_source ("Ubud" ++ ", " ++ "Gianyar" ++ ", Bali, Indonesia")
      ["Ubud"] "Gianyar" = "article_place" ∧
    used_source "Bali, Indonesia" [] "" ∈
      (["article_place", "kabupaten_fallback", "bali_fallback"] : List String) :=
  ⟨C2_refine_source.2 ["Ubud"] "Ubud" "Gianyar" (by decide),
   C2_refine_source.1 "Bali, Indonesia" [] ""⟩

/-- C3 counterexample: the order of tied candidates is the iteration order
of the intermediate Python set, which is implementation-defined and not
first-appearance order — a valid set enumeration exists under which the tie
["Ubud", "Kuta"] comes out in the opposite order from the claimed
first-appearance result. -/
theorem C3_counterexample :
    ∃ enum, validEnum enum ∧
      extract_pipeline enum ["Ubud", "Kuta"] ≠ claimedExtract ["Ubud", "Kuta"] := by
  refine ⟨fun l => (dedupFA l).reverse, validEnum_revDedupFA, ?_⟩
  decide

/-- C3 amended: for every input and every valid set enumeration, the result
is a permutation of the case-insensitively deduplicated normalized matches
(trimmed, title-cased), has no duplicates, and is ordered by raw
pre-deduplication occurrence count descending; ties are in the unspecified
set order, not necessarily first-appearance order. -/
theorem C3_extract_order (raw : List String) (enum : List String → List String)
    (h : validEnum enum) :
    (extract_pipeline enum raw).Perm (dedupFA (normalizeMatches raw)) ∧
    List.Pairwise
      (fun a b => (normalizeMatches raw).count b ≤ (normalizeMatches raw).count a)
      (extract_pipeline enum raw) ∧
    (extract_pipeline enum raw).Nodup := by
  have hperm1 : (extract_pipeline enum raw).Perm (enum (normalizeMatches raw)) :=
    perm_pySortedDesc _ _
  have henum := h (normalizeMatches raw)
  have hperm2 : (enum (normalizeMatches raw)).Perm (dedupFA (normalizeMatches raw)) := by
    refine List.perm_of_nodup_nodup_toFinset_eq henum.1 (nodup_dedupFAAux [] _) ?_
    ext x
    simp [List.mem_toFinset, henum.2, dedupFA, mem_dedupFAAux]
  refine ⟨hperm1.trans hperm2, pairwise_pySortedDesc _ _, ?_⟩
  exact (hperm1.trans hperm2).nodup_iff.mpr (nodup_dedupFAAux [] _)

/-- C3 witness: on the matches ["Desa Ubud", "kuta", "KUTA"] with the
first-appearance enumeration, the pipeline's output is a permutation of the
deduplicated normalized list, count-ordered and duplicate-free. -/
theorem C3_extract_order_witness :
    (extract_pipeline dedupFA ["Desa Ubud", "kuta", "KUTA"]).Perm
      (dedupFA (normalizeMatches ["Desa Ubud", "kuta", "KUTA"])) ∧
    List.Pairwise
      (fun a b => (normalizeMatches ["Desa Ubud", "kuta", "KUTA"]).count b ≤
        (normalizeMatches ["Desa Ubud", "kuta", "KUTA"]).count a)
      (extract_pipeline dedupFA ["Desa Ubud", "kuta", "KUTA"]) ∧
    (extract_pipeline dedupFA ["Desa Ubud", "kuta", "KUTA"]).Nodup :=
  C3_extract_order ["Desa Ubud", "kuta", "KUTA"] dedupFA validEnum_dedupFA

/-- C4: a cache hit returns the cached value with no external call and no
state change; a cache miss issues one external call and caches the result —
a failing or empty result included — under the stripped query; and across
resolving the same candidate list twice from a fresh run, every distinct
query string is sent externally at most once. -/
theorem C4_cache_idempotence :
    (∀ (oracle : String → Option Coord) (st : GeoState) (q : String)
      (r : Option Coord), pyStrip q ≠ "" →
      st.cache.lookup (pyStrip q) = some r →
      geocode_cached oracle st q = (r, st)) ∧
    (∀ (oracle : String → Option Coord) (st : GeoState) (q : String),
      pyStrip q ≠ "" → st.cache.lookup (pyStrip q) = none →
      (geocode_cached oracle st q).2.cache.lookup (pyStrip q) =
        some (oracle (pyStrip q)) ∧
      (geocode_cached oracle st q).2.calls = st.calls ++ [pyStrip q]) ∧
    (∀ (oracle : String → Option Coord) (cands : List String) (kab : String)
      (q : String),
      ((tryQueries oracle (tryQueries oracle initRun (query_attempts cands kab)).2
        (query_attempts cands kab)).2.geo.calls.count q) ≤ 1) := by
  refine ⟨?_, ?_, ?_⟩
  · intro oracle st q r hne hl
    unfold geocode_cached
    rw [if_neg hne]
    simp only [hl]
  · intro oracle st q hne hl
    unfold geocode_cached
    rw [if_neg hne]
    simp only [hl]
    exact ⟨by simp [List.lookup], by trivial⟩
  · intro oracle cands kab q
    have h1 := tryQueries_inv oracle initRun (query_attempts cands kab) invC_initRun
    have h2 := tryQueries_inv oracle
      (tryQueries oracle initRun (query_attempts cands kab)).2
      (query_attempts cands kab) h1
    exact List.nodup_iff_count_le_one.mp h2.1 q

/-- C4 witness: a concrete cache hit is answered unchanged from the cache,
and a concrete miss on a failing oracle is cached as a miss with exactly one
logged call. -/
theorem C4_cache_idempotence_witness :
    geocode_cached (fun _ => none) ⟨[("X", some ⟨1, 2, "d"⟩)], ["X"]⟩ "X" =
      (some ⟨1, 2, "d"⟩, ⟨[("X", some ⟨1, 2, "d"⟩)], ["X"]⟩) ∧
    (geocode_cached (fun _ => none) ⟨[], []⟩ "Y").2.cache.lookup (pyStrip "Y") =
      some none ∧
    (geocode_cached (fun _ => none) ⟨[], []⟩ "Y").2.calls = [] ++ [pyStrip "Y"] :=
  ⟨C4_cache_idempotence.1 (fun _ => none) ⟨[("X", some ⟨1, 2, "d"⟩)], ["X"]⟩ "X"
      (some ⟨1, 2, "d"⟩) (by decide) (by decide),
   (C4_cache_idempotence.2.1 (fun _ => none) ⟨[], []⟩ "Y" (by decide) (by decide)).1,
   (C4_cache_idempotence.2.1 (fun _ => none) ⟨[], []⟩ "Y" (by decide) (by decide)).2⟩

/-- C5: for a search-API source returning k non-empty pages followed by an
empty page, the CNN adapter issues exactly k + 1 page requests and stops (an
empty `data` array is terminal); the HTML-rendered Mongabay variant issues no
pagination request when no next-page link is found. -/
theorem C5_pagination_termination :
    (∀ (pages : List (Option (List CnnSearchItem))) (start : Nat),
      (∀ p ∈ pages, p ≠ none ∧ p ≠ some []) →
      cnnPageRun (pages ++ [some []]) start = pages.length + 1) ∧
    (∀ pg : MongaSearchPage, pg.pageAnchors = [] →
      (mongabay_parse_search pg).filter isMPage = []) := by
  constructor
  · intro pages
    induction pages with
    | nil =>
      intro start h
      simp [cnnPageRun, cnn_parse_search]
    | cons p pages ih =>
      intro start h
      obtain ⟨hn, hne⟩ := h p (List.mem_cons_self p pages)
      cases p with
      | none => exact absurd rfl hn
      | some l =>
        have hl : l.isEmpty = false := by
          cases l with
          | nil => exact absurd rfl hne
          | cons a l => rfl
        have hnext : (cnn_parse_search (some l) start).any isNextPage = true := by
          simp [cnn_parse_search, hl, isNextPage]
        simp only [List.cons_append, cnnPageRun, hnext, if_pos]
        simp only [List.append_eq]
        rw [ih (start + 10) (fun p hp => h p (List.mem_cons.mpr (Or.inr hp)))]
        simp only [List.length_cons]
        omega
  · intro pg h
    unfold mongabay_parse_search
    rw [h]
    by_cases he : pg.articleAnchors.isEmpty <;>
      simp [he, List.filter_append, filter_isMPage_filterMap, filter_isMPage_map]

/-- C5 witness: two non-empty pages then an empty page give exactly three
page requests, and a search page without pagination anchors spawns no
pagination request. -/
theorem C5_pagination_termination_witness :
    cnnPageRun ([some [⟨some "u1"⟩], some [⟨none⟩]] ++ [some []]) 0 = 3 ∧
    (mongabay_parse_search ⟨[some "a1"], [], ["f1"]⟩).filter isMPage = [] :=
  ⟨C5_pagination_termination.1 [some [⟨some "u1"⟩], some [⟨none⟩]] 0 (by decide),
   C5_pagination_termination.2 ⟨[some "a1"], [], ["f1"]⟩ rfl⟩

/-- C6: a redirect response is answered by exactly one re-issued request to
the target with the same context and the article callback (never pagination)
and no record; under the scheduler's at-most-once dispatch no URL is
processed twice, so redirect loops terminate; concretely, a request that
redirects once to a terminal article page yields exactly one record, and a
two-URL redirect loop ends after processing each URL once. -/
theorem C6_redirect_transparency :
    (∀ (dp : String → Option String) (ctx : Ctx) (u loc : String),
      cnn_parse dp ctx u (.redirect loc) = [.req loc .cbParse ctx]) ∧
    (∀ (server : String → CnnResponse) (dp : String → Option String) (ctx : Ctx)
      (fuel : Nat) (frontier seen : List String),
      (driveCnn server dp ctx fuel frontier seen).1.Nodup ∧
      ∀ u ∈ (driveCnn server dp ctx fuel frontier seen).1, u ∉ seen) ∧
    ((driveCnn (fun u => if u = "A" then CnnResponse.redirect "B"
        else CnnResponse.page ⟨some "body", some "T", none, none⟩)
      (fun _ => none) ⟨"kw", "src"⟩ 10 ["A"] []).2.1.length = 1 ∧
     (driveCnn (fun u => if u = "A" then CnnResponse.redirect "B"
        else CnnResponse.page ⟨some "body", some "T", none, none⟩)
      (fun _ => none) ⟨"kw", "src"⟩ 10 ["A"] []).2.2 = true) ∧
    ((driveCnn (fun u => if u = "A" then CnnResponse.redirect "B"
        else CnnResponse.redirect "A")
      (fun _ => none) ⟨"kw", "src"⟩ 10 ["A"] []).1 = ["A", "B"] ∧
     (driveCnn (fun u => if u = "A" then CnnResponse.redirect "B"
        else CnnResponse.redirect "A")
      (fun _ => none) ⟨"kw", "src"⟩ 10 ["A"] []).2.2 = true) := by
  refine ⟨fun dp ctx u loc => rfl, ?_, by decide, by decide⟩
  intro server dp ctx fuel frontier seen
  exact driveCnn_processed_once server dp ctx fuel frontier seen

/-- C6 witness: driving the two-URL redirect loop from a non-empty seen set
processes no URL twice, and the URL "A" of the log is not in the prior seen
set. -/
theorem C6_redirect_transparency_witness :
    (driveCnn (fun u => if u = "A" then CnnResponse.redirect "B"
        else CnnResponse.redirect "A")
      (fun _ => none) ⟨"kw", "src"⟩ 10 ["A"] ["Z"]).1.Nodup ∧
    ("A" : String) ∉ (["Z"] : List String) :=
  ⟨(C6_redirect_transparency.2.1 (fun u => if u = "A" then CnnResponse.redirect "B"
        else CnnResponse.redirect "A")
      (fun _ => none) ⟨"kw", "src"⟩ 10 ["A"] ["Z"]).1,
   (C6_redirect_transparency.2.1 (fun u => if u = "A" then CnnResponse.redirect "B"
        else CnnResponse.redirect "A")
      (fun _ => none) ⟨"kw", "src"⟩ 10 ["A"] ["Z"]).2 "A" (by decide)⟩

/-- C7 counterexample: a CNN article page whose body container is present
but empty and which has no headline emits one record even though both the
extracted title and the extracted body text are empty — the claim says such
a page must produce no record. -/
theorem C7_counterexample :
    (cnn_parse (fun _ => none) ⟨"kw", "src"⟩ "u"
      (.page ⟨some "", none, none, none⟩)) =
      [.item ⟨"", "judul: \nauthor: \ntanggal:", "", none, "kw", "src", "u"⟩] ∧
    ((⟨some "", none, none, none⟩ : CnnPage).h1Text.getD "" = "") ∧
    pyStrip "" = "" := by decide

/-- C7 amended: the Mongabay adapter emits a record only if the extracted
title or content is non-empty; the CNN adapter instead emits exactly when
the article body container is present — even with empty extracted title and
body — its record's content field then being non-empty boilerplate. -/
theorem C7_emission_policy :
    (∀ (indoDate isoDate : String → Option String) (meta : MongaMeta)
      (url : String) (pg : MongaPage),
      (mongabay_parse indoDate isoDate meta url pg).isSome = true →
      pg.title ≠ "" ∨ pg.content ≠ "") ∧
    (∀ (dp : String → Option String) (ctx : Ctx) (url : String) (pg : CnnPage),
      cnn_parse dp ctx url (.page pg) ≠ [] ↔ pg.detailText.isSome = true) ∧
    (∀ it ∈ (cnn_parse (fun _ => none) ⟨"kw", "src"⟩ "u"
        (.page ⟨some "", none, none, none⟩)).filterMap outItem,
      it.content ≠ "") := by
  refine ⟨?_, ?_, by decide⟩
  · intro indoDate isoDate meta url pg h
    by_cases hc : pg.title = "" ∧ pg.content = ""
    · exfalso
      unfold mongabay_parse at h
      rw [if_pos hc] at h
      simp at h
    · exact not_and_or.mp hc
  · intro dp ctx url pg
    cases hd : pg.detailText <;> simp [cnn_parse, hd]

/-- C7 witness: a Mongabay page that is emitted (title "T") indeed has a
non-empty title or content. -/
theorem C7_emission_policy_witness :
    (mongabay_parse (fun _ => none) (fun _ => none) ⟨"kw", "src", none, none⟩
      "u" ⟨"T", "", "a", none⟩).isSome = true ∧
    (("T" : String) ≠ "" ∨ ("" : String) ≠ "") :=
  ⟨by decide,
   C7_emission_policy.1 (fun _ => none) (fun _ => none) ⟨"kw", "src", none, none⟩
     "u" ⟨"T", "", "a", none⟩ (by decide)⟩

/-- C8: when every query of the priority list fails, the feature is counted
as skipped (not errored), its geometry is untouched, the refine_source and
refined_location properties are null, the status is "no_geocode_found", and
no refined latitude/longitude is written. -/
theorem C8_no_result_terminality (oracle : String → Option Coord)
    (cands : List String) (kab : String) (st : RunState) (feat : Feature)
    (h : (tryQueries oracle st (query_attempts cands kab)).1 = none) :
    (processFeature oracle cands kab st feat).2.1 = .skipped ∧
    (processFeature oracle cands kab st feat).1.geometry = feat.geometry ∧
    (processFeature oracle cands kab st feat).1.props.lookup "refine_source" =
      some .null ∧
    (processFeature oracle cands kab st feat).1.props.lookup "refined_location" =
      some .null ∧
    (processFeature oracle cands kab st feat).1.props.lookup "refine_status" =
      some (.str "no_geocode_found") ∧
    (processFeature oracle cands kab st feat).1.props.lookup "latitude_refined" =
      feat.props.lookup "latitude_refined" ∧
    (processFeature oracle cands kab st feat).1.props.lookup "longitude_refined" =
      feat.props.lookup "longitude_refined" := by
  have hpf : processFeature oracle cands kab st feat =
      (⟨feat.geometry, setP "refine_source" .null (setP "refined_location" .null
        (setP "refine_status" (.str "no_geocode_found") feat.props))⟩, .skipped,
        (tryQueries oracle st (query_attempts cands kab)).2) := by
    simp only [processFeature, h]
  rw [hpf]
  refine ⟨rfl, rfl, ?_, ?_, ?_, ?_, ?_⟩
  · exact lookup_setP_self _ _ _
  · rw [lookup_setP_ne _ _ _ _ (by decide)]
    exact lookup_setP_self _ _ _
  · rw [lookup_setP_ne _ _ _ _ (by decide), lookup_setP_ne _ _ _ _ (by decide)]
    exact lookup_setP_self _ _ _
  · rw [lookup_setP_ne _ _ _ _ (by decide), lookup_setP_ne _ _ _ _ (by decide),
      lookup_setP_ne _ _ _ _ (by decide)]
  · rw [lookup_setP_ne _ _ _ _ (by decide), lookup_setP_ne _ _ _ _ (by decide),
      lookup_setP_ne _ _ _ _ (by decide)]

/-- C8 witness: with an always-failing geocoder, candidates [] and hint
"Badung", a feature keeps its geometry and pre-existing properties and is
counted skipped. -/
theorem C8_no_result_terminality_witness :
    (processFeature (fun _ => none) [] "Badung" initRun
      ⟨.other "g", [("latitude_refined", .num 7)]⟩).2.1 = .skipped ∧
    (processFeature (fun _ => none) [] "Badung" initRun
      ⟨.other "g", [("latitude_refined", .num 7)]⟩).1.geometry = .other "g" ∧
    (processFeature (fun _ => none) [] "Badung" initRun
      ⟨.other "g", [("latitude_refined", .num 7)]⟩).1.props.lookup "refine_source" =
      some .null ∧
    (processFeature (fun _ => none) [] "Badung" initRun
      ⟨.other "g", [("latitude_refined", .num 7)]⟩).1.props.lookup
      "latitude_refined" = some (.num 7) := by
  have h := C8_no_result_terminality (fun _ => none) [] "Badung" initRun
    ⟨.other "g", [("latitude_refined", .num 7)]⟩ (by decide)
  refine ⟨h.1, h.2.1, h.2.2.1, ?_⟩
  rw [h.2.2.2.2.2.1]
  decide

/-- C9: the query-attempt list is never empty and always ends with the fixed
last-resort query "Bali, Indonesia", so at least one geocode lookup is
attempted for every processed feature. -/
theorem C9_last_resort (cands : List String) (kab : String) :
    query_attempts cands kab ≠ [] ∧
    (query_attempts cands kab).getLast? = some "Bali, Indonesia" := by
  unfold query_attempts
  constructor
  · simp
  · exact getLast?_append_singleton _ _

/-- C10: on success the feature's geometry becomes the point
[longitude, latitude] with exactly the coordinates written into the
latitude/longitude properties; on failure the geometry is unchanged and
every property other than the three status keys is untouched. -/
theorem C10_geometry_frame (oracle : String → Option Coord) (cands : List String)
    (kab : String) (st : RunState) (feat : Feature) :
    (∀ (q : String) (c : Coord),
      (tryQueries oracle st (query_attempts cands kab)).1 = some (q, c) →
      (processFeature oracle cands kab st feat).1.geometry = .point c.lon c.lat ∧
      (processFeature oracle cands kab st feat).1.props.lookup "longitude" =
        some (.num c.lon) ∧
      (processFeature oracle cands kab st feat).1.props.lookup "latitude" =
        some (.num c.lat) ∧
      (processFeature oracle cands kab st feat).2.1 = .updated) ∧
    ((tryQueries oracle st (query_attempts cands kab)).1 = none →
      (processFeature oracle cands kab st feat).1.geometry = feat.geometry ∧
      ∀ k, k ≠ "refine_status" → k ≠ "refined_location" → k ≠ "refine_source" →
        (processFeature oracle cands kab st feat).1.props.lookup k =
          feat.props.lookup k) := by
  constructor
  · intro q c h
    simp only [processFeature, h]
    refine ⟨by trivial, ?_, ?_, by trivial⟩
    · exact lookup_setP_self _ _ _
    · rw [lookup_setP_ne _ _ _ _ (by decide)]
      exact lookup_setP_self _ _ _
  · intro h
    simp only [processFeature, h]
    refine ⟨by trivial, ?_⟩
    intro k h1 h2 h3
    rw [lookup_setP_ne _ _ _ _ h3, lookup_setP_ne _ _ _ _ h2,
      lookup_setP_ne _ _ _ _ h1]

/-- C10 witness: a successful resolution at (lat 5, lon 6) writes geometry
point 6 5 and matching properties; a failing one leaves the "keyword"
property and geometry unchanged. -/
theorem C10_geometry_frame_witness :
    (processFeature (fun q => if q = "Bali, Indonesia" then some ⟨5, 6, "d"⟩ else none)
      [] "" initRun ⟨.other "g", []⟩).1.geometry = .point 6 5 ∧
    (processFeature (fun q => if q = "Bali, Indonesia" then some ⟨5, 6, "d"⟩ else none)
      [] "" initRun ⟨.other "g", []⟩).1.props.lookup "longitude" = some (.num 6) ∧
    (processFeature (fun _ => none) [] "" initRun
      ⟨.other "g", [("keyword", .str "banjir")]⟩).1.props.lookup "keyword" =
      some (.str "banjir") := by
  have hs := (C10_geometry_frame
    (fun q => if q = "Bali, Indonesia" then some ⟨5, 6, "d"⟩ else none)
    [] "" initRun ⟨.other "g", []⟩).1 "Bali, Indonesia" ⟨5, 6, "d"⟩ (by decide)
  have hf := (C10_geometry_frame (fun _ => none) [] "" initRun
    ⟨.other "g", [("keyword", .str "banjir")]⟩).2 (by decide)
  refine ⟨hs.1, hs.2.1, ?_⟩
  rw [hf.2 "keyword" (by decide) (by decide) (by decide)]
  decide

end SentimentDisaster
